import Mathlib

/-!
Verification of the ABSAPolEmo data pipeline.

Shallow embedding of the feature-construction code in
src/utils/data_utils.py (recurrent and transformer-packing feature
builders, corpus-loader document loop) and of the control flow of
src/models/Transformers.py (start-up validation, checkpoint-on-improvement
logic).  Machine-level string operations from Python are modelled by
executable Lean counterparts (pySplit, pyStrip, pySlice).
-/

/-- Models Python str.split(sep) for a one-character separator: splits at
every occurrence of the separator, keeping empty segments (auxiliary loop
over the character list, accumulating the current segment reversed). -/
def splitCharsAux (sep : Char) : List Char → List Char → List (List Char)
  | [], acc => [acc.reverse]
  | c :: cs, acc =>
    if c = sep then acc.reverse :: splitCharsAux sep cs []
    else splitCharsAux sep cs (c :: acc)

/-- Models Python str.split(sep) for a one-character separator. -/
def pySplit (sep : Char) (s : String) : List String :=
  (splitCharsAux sep s.toList []).map String.mk

/-- Models Python str.strip(): drops leading and trailing whitespace. -/
def pyStrip (s : String) : String :=
  String.mk (((s.toList.dropWhile Char.isWhitespace).reverse.dropWhile
    Char.isWhitespace).reverse)

/-- Models the Python slice l[0:k] where k may be negative (a negative k
keeps the first length+k elements). -/
def pySlice (k : Int) (l : List α) : List α :=
  if 0 ≤ k then l.take k.toNat else l.take (l.length - (-k).toNat)

/-- Embeds data_utils.InputExample (guid, text_a, text_b, per-token label
list). -/
structure InputExample where
  guid : String
  text_a : String
  text_b : Option String
  label : List String
deriving DecidableEq

/-- Embeds data_utils.InputFeatures: the five parallel arrays of a Feature
Record. -/
structure InputFeatures where
  input_ids : List Nat
  input_mask : List Nat
  label_id : List Nat
  valid_ids : List Nat
  label_mask : List Nat
deriving DecidableEq

/-- Last-wins positional lookup: the index (counting from the given start)
of the last occurrence of a string in a list, mirroring how a Python dict
comprehension lets later duplicate keys overwrite earlier ones. -/
def lookupLabelIdx : List String → Nat → String → Option Nat
  | [], _, _ => none
  | l :: ls, i, s =>
    match lookupLabelIdx ls (i + 1) s with
    | some v => some v
    | none => if l = s then some i else none

/-- Embeds the label map built in data_utils (lines 73-74 and 106-107):
each label of label_list is numbered from 1 (later duplicates overwrite
earlier ones), and the IGNORE pseudo-label is mapped to 0, overwriting any
IGNORE occurring in label_list.  A label absent from the map (a KeyError
in Python) is given the default 0. -/
def label_map (label_list : List String) (s : String) : Nat :=
  if s = "IGNORE" then 0 else (lookupLabelIdx label_list 1 s).getD 0

/-- One word's column contribution in the transformer word loop: the inner
loop for m in range(k) emits the first value at m = 0 and the other value
at every later m. -/
def subwordCol (k : Nat) (first other : α) : List α :=
  (List.range k).map fun m => if m = 0 then first else other

/-- The four parallel columns built by the transformer word loop before
markers are added: sub-word token ids, string labels, validity flags,
label-mask flags. -/
structure WordCols where
  tok : List Nat
  labs : List String
  vld : List Nat
  msk : List Nat
deriving DecidableEq

/-- Embeds the word loop of convert_examples_to_features_Transformers
(data_utils.py lines 122-134): each word is stripped and sub-word encoded;
the first sub-word position receives the word's label (labellist[i]) with
validity 1 and label mask 1, later sub-word positions receive IGNORE with
validity 0 and label mask 0. -/
def wordLoop (encode_method : String → List Nat) (labellist : List String) :
    List String → Nat → WordCols
  | [], _ => ⟨[], [], [], []⟩
  | w :: ws, i =>
    let tokens := encode_method (pyStrip w)
    let rest := wordLoop encode_method labellist ws (i + 1)
    ⟨tokens ++ rest.tok,
     subwordCol tokens.length (labellist.getD i "") "IGNORE" ++ rest.labs,
     subwordCol tokens.length 1 0 ++ rest.vld,
     subwordCol tokens.length 1 0 ++ rest.msk⟩

/-- Embeds the truncation step (data_utils.py lines 137-141): when the
sub-word-encoded length reaches max_seq_length - 1, all four arrays are
cut by the Python slice [0:max_seq_length-2]. -/
def truncCols (max_seq_length : Nat) (w : WordCols) : WordCols :=
  if ((w.tok.length : Int) ≥ (max_seq_length : Int) - 1) then
    ⟨pySlice ((max_seq_length : Int) - 2) w.tok,
     pySlice ((max_seq_length : Int) - 2) w.labs,
     pySlice ((max_seq_length : Int) - 2) w.vld,
     pySlice ((max_seq_length : Int) - 2) w.msk⟩
  else w

/-- Embeds the sentence markers (data_utils.py lines 143-153): a
beginning-of-sequence id 0 is prepended and an end-of-sequence id 2 is
appended, both with the IGNORE label, validity 0 and label mask 0. -/
def markCols (w : WordCols) : WordCols :=
  ⟨0 :: (w.tok ++ [2]), "IGNORE" :: (w.labs ++ ["IGNORE"]),
   0 :: (w.vld ++ [0]), 0 :: (w.msk ++ [0])⟩

/-- The five parallel pending-buffer columns of the packing loop. -/
structure Cols where
  tok : List Nat
  im : List Nat
  lid : List Nat
  vld : List Nat
  lmsk : List Nat
deriving DecidableEq

/-- Embeds the per-example part of convert_examples_to_features_Transformers
(data_utils.py lines 115-162): word loop, truncation, markers, then
label_ids built by mapping the label map over labels positionally and an
input mask of ones. -/
def exampleCols (max_seq_length : Nat) (label_list : List String)
    (encode_method : String → List Nat) (e : InputExample) : Cols :=
  let textlist := pySplit ' ' e.text_a
  let m := markCols (truncCols max_seq_length
    (wordLoop encode_method e.label textlist 0))
  ⟨m.tok,
   List.replicate m.tok.length 1,
   (List.range m.tok.length).map (fun i => label_map label_list (m.labs.getD i "")),
   m.vld, m.msk⟩

/-- Embeds data_utils.append_pending (lines 220-243): the first while loop
pads all five arrays until the token array reaches max_seq_length (token
pad id 1, mask pads 0, label pad = label_map[ignored_label]); the second
while loop pads only label ids and label mask until the label-id array
reaches max_seq_length. -/
def append_pending (ignored_label : String) (p : Cols) (max_seq_length : Nat)
    (labelMapF : String → Nat) : InputFeatures :=
  let n := max_seq_length - p.tok.length
  let tok := p.tok ++ List.replicate n 1
  let im := p.im ++ List.replicate n 0
  let lid := p.lid ++ List.replicate n (labelMapF ignored_label)
  let vld := p.vld ++ List.replicate n 0
  let lmsk := p.lmsk ++ List.replicate n 0
  let n2 := max_seq_length - lid.length
  ⟨tok, im, lid ++ List.replicate n2 (labelMapF ignored_label), vld,
   lmsk ++ List.replicate n2 0⟩

/-- Componentwise concatenation of pending columns (the five extend calls
of data_utils.py lines 173-177). -/
def catCols (p q : Cols) : Cols :=
  ⟨p.tok ++ q.tok, p.im ++ q.im, p.lid ++ q.lid, p.vld ++ q.vld,
   p.lmsk ++ q.lmsk⟩

/-- The empty pending buffer (data_utils.py lines 108-112). -/
def emptyCols : Cols := ⟨[], [], [], [], []⟩

/-- Embeds the packing loop of convert_examples_to_features_Transformers
(data_utils.py lines 114 and 163-180): if adding the current example's
arrays would push the pending buffer past max_seq_length, the pending
buffer is flushed through append_pending and the current example starts a
new buffer; otherwise the current example's arrays are appended to the
buffer.  After the last example, the remaining buffer is flushed
unconditionally. -/
def packLoop (max_seq_length : Nat) (label_list : List String)
    (encode_method : String → List Nat) :
    List InputExample → Cols → List InputFeatures
  | [], p => [append_pending "IGNORE" p max_seq_length (label_map label_list)]
  | e :: es, p =>
    let cur := exampleCols max_seq_length label_list encode_method e
    if cur.tok.length + p.tok.length > max_seq_length then
      append_pending "IGNORE" p max_seq_length (label_map label_list) ::
        packLoop max_seq_length label_list encode_method es cur
    else
      packLoop max_seq_length label_list encode_method es (catCols p cur)

/-- Embeds data_utils.convert_examples_to_features_Transformers
(lines 104-180). -/
def convert_examples_to_features_Transformers (examples : List InputExample)
    (label_list : List String) (max_seq_length : Nat)
    (encode_method : String → List Nat) : List InputFeatures :=
  packLoop max_seq_length label_list encode_method examples emptyCols

/-- Embeds the token-id truncation/padding of
convert_examples_to_features_LSTM (data_utils.py lines 83-86): truncate to
max_seq_length when longer, right-pad with id 0 when shorter. -/
def lstmTokenIds (max_seq_length : Nat) (ids : List Nat) : List Nat :=
  if ids.length > max_seq_length then ids.take max_seq_length
  else if ids.length < max_seq_length then
    ids ++ List.replicate (max_seq_length - ids.length) 0
  else ids

/-- Embeds the per-example body of convert_examples_to_features_LSTM
(data_utils.py lines 75-101).  Note that valid_ids = [1]*len(token_ids) is
computed only after token_ids has already been truncated or padded to
max_seq_length, so the final extend of zeros appends
max_seq_length - len(token_ids) = 0 elements. -/
def lstmFeature (label_list : List String) (max_seq_length : Nat)
    (encode_method : List String → List Nat) (e : InputExample) :
    InputFeatures :=
  let textlist := pySplit ' ' e.text_a
  let labellist := e.label
  let token_ids := lstmTokenIds max_seq_length (encode_method textlist)
  let label_ids := (List.range max_seq_length).map fun i =>
    if labellist.length ≤ i then label_map label_list "IGNORE"
    else label_map label_list (labellist.getD i "")
  let lmask := (List.range max_seq_length).map fun i =>
    if labellist.length ≤ i then (0 : Nat) else 1
  let valid_ids := List.replicate token_ids.length 1 ++
    List.replicate (max_seq_length - token_ids.length) 0
  ⟨token_ids, List.replicate token_ids.length 1, label_ids, valid_ids, lmask⟩

/-- Embeds data_utils.convert_examples_to_features_LSTM (lines 70-102). -/
def convert_examples_to_features_LSTM (examples : List InputExample)
    (label_list : List String) (max_seq_length : Nat)
    (encode_method : List String → List Nat) : List InputFeatures :=
  examples.map (lstmFeature label_list max_seq_length encode_method)

/-- Embeds the document loop of data_utils.load_from_folder (lines 38-44):
each file is read and appended, and the loop breaks as soon as the
accumulated list length exceeds 100.  File parsing is abstracted as a
function from file name to a (tokens, labels) pair. -/
def loadLoop (rd : String → List String × List String) :
    List String → List (List String × List String) →
    List (List String × List String)
  | [], acc => acc
  | f :: fs, acc =>
    let acc' := acc ++ [rd f]
    if acc'.length > 100 then acc' else loadLoop rd fs acc'

/-- Embeds the extension filter of load_from_folder (line 37):
x.split('.')[1] == 'json'. -/
def jsonFilter (files : List String) : List String :=
  files.filter fun x => (pySplit '.' x).getD 1 "" == "json"

/-- Embeds data_utils.load_from_folder (lines 34-45), with directory
listing and JSON parsing abstracted as the files list and the rd
function. -/
def load_from_folder (files : List String)
    (rd : String → List String × List String) :
    List (List String) × List (List String) :=
  let docs := loadLoop rd (jsonFilter files) []
  (docs.map Prod.fst, docs.map Prod.snd)

/-- The externally observable start-up actions of Transformers.train,
in program order. -/
inductive TrainAct
  | makeDirs
  | setupLogging
  | loadExamples
  | buildModel
  | featurize
  | trainSteps
deriving DecidableEq

/-- Result of the start-up phase of Transformers.train: the actions
performed and whether a ValueError was raised. -/
structure TrainStart where
  acts : List TrainAct
  valueErrorRaised : Bool
deriving DecidableEq

/-- Embeds the control flow of Transformers.train start-up
(Transformers.py lines 23-116): raise ValueError if the output directory
exists and is non-empty; otherwise create the directory (when absent) and
set up logging; then raise ValueError if gradient_accumulation_steps < 1;
otherwise proceed to example loading, model construction, featurization
and the training loop.  I/O effects are abstracted as trace actions. -/
def train_start (outDirExists outDirNonempty : Bool)
    (gradient_accumulation_steps : Int) : TrainStart :=
  if outDirExists && outDirNonempty then ⟨[], true⟩
  else
    let setup := (if !outDirExists then [TrainAct.makeDirs] else []) ++
      [TrainAct.setupLogging]
    if gradient_accumulation_steps < 1 then ⟨setup, true⟩
    else ⟨setup ++ [TrainAct.loadExamples, TrainAct.buildModel,
      TrainAct.featurize, TrainAct.trainSteps], false⟩

/-- Embeds the checkpoint-on-improvement logic of Transformers.train
(Transformers.py lines 107 and 140-145): best starts at 0.0 and a
checkpoint is written at an epoch exactly when that epoch's validation F1
strictly exceeds the current best, which is then updated.  F1 scores are
modelled as rationals. -/
def ckptGo : ℚ → List ℚ → List Bool
  | _, [] => []
  | best, f :: fs => if best < f then true :: ckptGo f fs
                     else false :: ckptGo best fs

/-- Per-epoch checkpoint-write flags for a list of validation F1 scores,
with the best-so-far initialized to 0.0. -/
def checkpointWrites (f1s : List ℚ) : List Bool := ckptGo 0 f1s

/-- The values of the second list at the positions where the first list
(a 0/1 mask) is 1, in order. -/
def maskSel (v : List Nat) (l : List Nat) : List Nat :=
  (v.zip l).filterMap fun p => if p.1 = 1 then some p.2 else none

/-- String-valued variant of maskSel. -/
def maskSelS (v : List Nat) (l : List String) : List String :=
  (v.zip l).filterMap fun p => if p.1 = 1 then some p.2 else none

/-- Well-formedness of a pending buffer: the five columns have equal
lengths and the token column does not exceed max_seq_length.  This is the
invariant the packing loop maintains (checked by the asserts of
append_pending). -/
def ColsOK (max_seq_length : Nat) (p : Cols) : Prop :=
  p.im.length = p.tok.length ∧ p.lid.length = p.tok.length ∧
  p.vld.length = p.tok.length ∧ p.lmsk.length = p.tok.length ∧
  p.tok.length ≤ max_seq_length

/-- A sub-word encoder mapping every word to one piece with id 5. -/
def encOne : String → List Nat := fun _ => [5]

/-- A sub-word encoder mapping the word bb to two pieces and every other
word to one piece. -/
def encTwo : String → List Nat := fun w => if w = "bb" then [3, 4] else [5]

/-- A recurrent-model word encoder mapping each token of the list to one
id 7. -/
def encPerWord : List String → List Nat := fun ws => List.replicate ws.length 7

/-- A two-word example. -/
def exA : InputExample := ⟨"train-0", "a b", none, ["O", "O"]⟩

/-- A one-word example. -/
def exB : InputExample := ⟨"train-1", "c", none, ["O"]⟩

/-- Another one-word example. -/
def exC : InputExample := ⟨"train-2", "d", none, ["O"]⟩

/-- A five-word example, long enough to trigger truncation at
max_seq_length 4. -/
def exLong : InputExample := ⟨"train-3", "a b c d e", none,
  ["O", "O", "O", "O", "O"]⟩

/-- A directory listing with 102 recognized annotation files. -/
def filesMany : List String := List.replicate 102 "f.json"

/-- A trivial document reader. -/
def readTriv : String → List String × List String := fun _ => (["t"], ["O"])

/-! ## General helper lemmas -/

theorem packLoop_nil_eq (msl : Nat) (ll : List String)
    (enc : String → List Nat) (p : Cols) :
    packLoop msl ll enc [] p =
      [append_pending "IGNORE" p msl (label_map ll)] := rfl

theorem packLoop_cons_gt (msl : Nat) (ll : List String)
    (enc : String → List Nat) (e : InputExample) (es : List InputExample)
    (p : Cols)
    (h : msl < (exampleCols msl ll enc e).tok.length + p.tok.length) :
    packLoop msl ll enc (e :: es) p =
      append_pending "IGNORE" p msl (label_map ll) ::
        packLoop msl ll enc es (exampleCols msl ll enc e) := by
  simp only [packLoop]
  rw [if_pos (by omega)]

theorem packLoop_cons_le (msl : Nat) (ll : List String)
    (enc : String → List Nat) (e : InputExample) (es : List InputExample)
    (p : Cols)
    (h : (exampleCols msl ll enc e).tok.length + p.tok.length ≤ msl) :
    packLoop msl ll enc (e :: es) p =
      packLoop msl ll enc es (catCols p (exampleCols msl ll enc e)) := by
  simp only [packLoop]
  rw [if_neg (by omega)]

theorem packLoop_ne_nil (msl : Nat) (ll : List String)
    (enc : String → List Nat) :
    ∀ (es : List InputExample) (p : Cols), packLoop msl ll enc es p ≠ [] := by
  intro es
  induction es with
  | nil => intro p; simp [packLoop]
  | cons e es ih =>
    intro p
    simp only [packLoop]
    split
    · simp
    · exact ih _

theorem catCols_empty_left (q : Cols) : catCols emptyCols q = q := by
  cases q
  simp [catCols, emptyCols]

theorem label_map_ignore (ll : List String) : label_map ll "IGNORE" = 0 := by
  simp [label_map]

/-! ## C10: empty example list yields one all-padding record -/

/-- C10: the transformer-packing strategy always returns at least one
Feature Record because the final flush is unconditional; on the empty
example list it returns exactly one record of pure padding: input ids all
1, input mask, validity mask and label mask all 0, and label ids all equal
to the IGNORE id 0. -/
theorem C10_unconditional_final_flush (label_list : List String)
    (msl : Nat) (enc : String → List Nat) :
    convert_examples_to_features_Transformers [] label_list msl enc =
      [⟨List.replicate msl 1, List.replicate msl 0, List.replicate msl 0,
        List.replicate msl 0, List.replicate msl 0⟩] ∧
    ∀ es : List InputExample,
      convert_examples_to_features_Transformers es label_list msl enc ≠ [] := by
  constructor
  · simp [convert_examples_to_features_Transformers, packLoop, append_pending,
      emptyCols, label_map_ignore]
  · intro es
    exact packLoop_ne_nil msl label_list enc es emptyCols

/-! ## C8: start-up validation of Transformers.train -/

/-- C8: Transformers.train raises a ValueError if and only if the output
directory exists and is non-empty, or gradient_accumulation_steps < 1; and
in either fatal case no example loading, model construction, featurization
or training step is performed. -/
theorem C8_train_start_validation (outDirExists outDirNonempty : Bool)
    (gas : Int) :
    ((train_start outDirExists outDirNonempty gas).valueErrorRaised = true ↔
      ((outDirExists = true ∧ outDirNonempty = true) ∨ gas < 1)) ∧
    ((train_start outDirExists outDirNonempty gas).valueErrorRaised = true →
      ∀ a ∈ (train_start outDirExists outDirNonempty gas).acts,
        a ≠ TrainAct.loadExamples ∧ a ≠ TrainAct.buildModel ∧
        a ≠ TrainAct.featurize ∧ a ≠ TrainAct.trainSteps) := by
  by_cases h : gas < 1 <;>
    cases outDirExists <;> cases outDirNonempty <;>
      simp [train_start, h]

/-- Witness for C8 at a concrete input: a non-empty pre-existing output
directory raises the error. -/
theorem C8_train_start_validation_witness :
    (train_start true true 5).valueErrorRaised = true :=
  (C8_train_start_validation true true 5).1.mpr (Or.inl ⟨rfl, rfl⟩)

/-! ## C9: checkpoint on strict F1 improvement -/

theorem ckptGo_getD (f1s : List ℚ) : ∀ (best : ℚ) (i : Nat),
    i < f1s.length →
    ((ckptGo best f1s).getD i false = true ↔
      (f1s.take i).foldl max best < f1s.getD i 0) := by
  induction f1s with
  | nil => intro best i hi; simp at hi
  | cons f fs ih =>
    intro best i hi
    cases i with
    | zero =>
      by_cases h : best < f <;> simp [ckptGo, h]
    | succ j =>
      have hj : j < fs.length := by simpa using hi
      simp only [ckptGo]
      by_cases h : best < f
      · have hmax : max best f = f := max_eq_right (le_of_lt h)
        rw [if_pos h]
        simp only [List.getD_cons_succ, List.take_succ_cons, List.foldl_cons,
          hmax]
        exact ih f j hj
      · have hmax : max best f = best := max_eq_left (le_of_not_lt h)
        rw [if_neg h]
        simp only [List.getD_cons_succ, List.take_succ_cons, List.foldl_cons,
          hmax]
        exact ih best j hj

/-- C9: during training the best checkpoint is written at an epoch if and
only if that epoch's validation F1 strictly exceeds the best F1 seen so
far (the running maximum, initialized to 0.0); in particular the F1
sequence [0.5, 0.4, 0.6] triggers writes exactly at epochs 1 and 3. -/
theorem C9_checkpoint_on_improvement (f1s : List ℚ) (i : Nat)
    (hi : i < f1s.length) :
    ((checkpointWrites f1s).getD i false = true ↔
      (f1s.take i).foldl max 0 < f1s.getD i 0) ∧
    checkpointWrites [(1 : ℚ)/2, 2/5, 3/5] = [true, false, true] := by
  refine ⟨ckptGo_getD f1s 0 i hi, ?_⟩
  norm_num [checkpointWrites, ckptGo]

/-- Witness for C9 at a concrete input: with F1 scores [1, 2, 3], epoch 3
improves on the running best and is checkpointed. -/
theorem C9_checkpoint_on_improvement_witness :
    (checkpointWrites [(1 : ℚ), 2, 3]).getD 2 false = true :=
  (C9_checkpoint_on_improvement [(1 : ℚ), 2, 3] 2 (by decide)).1.mpr
    (by decide)

/-! ## C7: the loader cap admits 101 documents, not 100 -/

theorem loadLoop_take (rd : String → List String × List String) :
    ∀ (fs : List String) (acc : List (List String × List String)),
      acc.length ≤ 100 →
      loadLoop rd fs acc = acc ++ (fs.take (101 - acc.length)).map rd := by
  intro fs
  induction fs with
  | nil => intro acc _; simp [loadLoop]
  | cons f fs ih =>
    intro acc hacc
    simp only [loadLoop]
    by_cases h : (acc ++ [rd f]).length > 100
    · rw [if_pos h]
      have h100 : acc.length = 100 := by simp at h; omega
      have : 101 - acc.length = 1 := by omega
      simp [this, h100]
    · rw [if_neg h]
      have hle : (acc ++ [rd f]).length ≤ 100 := by omega
      rw [ih _ hle]
      have : 101 - acc.length = (101 - (acc ++ [rd f]).length) + 1 := by
        simp at hle ⊢; omega
      rw [this]
      simp [List.take_succ_cons]

/-- C7 counterexample: a directory with 102 recognized annotation files
makes load_from_folder return 101 documents, not the 100 the claim
states. -/
theorem C7_loader_cap_counterexample :
    100 < (jsonFilter filesMany).length ∧
    (load_from_folder filesMany readTriv).1.length ≠ 100 := by decide

/-- C7 amended: for every directory containing more than 100 recognized
annotation files, load_from_folder returns token-sequence and
label-sequence lists for exactly the first 101 documents (the break fires
only after the accumulated count exceeds 100). -/
theorem C7_loader_cap_amended (files : List String)
    (rd : String → List String × List String)
    (h : 100 < (jsonFilter files).length) :
    (load_from_folder files rd).1 =
      ((jsonFilter files).take 101).map (fun f => (rd f).1) ∧
    (load_from_folder files rd).2 =
      ((jsonFilter files).take 101).map (fun f => (rd f).2) ∧
    (load_from_folder files rd).1.length = 101 := by
  have hl := loadLoop_take rd (jsonFilter files) [] (by simp)
  simp only [load_from_folder, hl, List.nil_append, List.map_map]
  refine ⟨rfl, rfl, ?_⟩
  simp [List.length_take]
  omega

/-- Witness for C7's amended claim at a concrete input with 102 files. -/
theorem C7_loader_cap_amended_witness :
    (load_from_folder filesMany readTriv).1.length = 101 :=
  (C7_loader_cap_amended filesMany readTriv (by decide)).2.2

/-! ## C1: the recurrent-strategy validity mask is 1 even at padding -/

/-- C1: evaluating the embedded recurrent-strategy feature builder at a
two-token example with max_seq_length 4 shows that the validity mask is
[1, 1, 1, 1]: positions 2 and 3 are padding, yet their validity is 1, not
the 0 the claim (and the evident intent of the dead
valid_ids.extend([0]*...) line) requires, because token_ids is padded to
max_seq_length before valid_ids = [1]*len(token_ids) is computed. -/
theorem C1_lstm_validity_mask_at_padding :
    convert_examples_to_features_LSTM [exA] ["O"] 4 encPerWord =
      [⟨[7, 7, 0, 0], [1, 1, 1, 1], [1, 1, 0, 0], [1, 1, 1, 1],
        [1, 1, 0, 0]⟩] := by decide

/-! ## Structural lemmas for the transformer per-example pipeline -/

theorem range_map_getD (g : α → β) (d : α) :
    ∀ (l : List α),
      (List.range l.length).map (fun i => g (l.getD i d)) = l.map g := by
  intro l
  induction l with
  | nil => simp
  | cons a l ih =>
    simp only [List.length_cons, List.range_succ_eq_map, List.map_cons,
      List.map_map, List.getD_cons_zero]
    have hc : ((fun i => g ((a :: l).getD i d)) ∘ Nat.succ) =
        fun i => g (l.getD i d) := by
      funext i
      simp
    rw [hc, ih]

theorem subwordCol_length (k : Nat) (a b : α) :
    (subwordCol k a b).length = k := by
  simp [subwordCol]

theorem subwordCol_pos (k : Nat) (a b : α) (h : 1 ≤ k) :
    subwordCol k a b = a :: List.replicate (k - 1) b := by
  cases k with
  | zero => omega
  | succ n =>
    simp only [subwordCol, List.range_succ_eq_map, List.map_cons,
      List.map_map, if_pos rfl]
    have hc : ((fun m => if m = 0 then a else b) ∘ Nat.succ) = fun _ => b := by
      funext m
      simp
    rw [hc]
    simp [List.map_const']

theorem wordLoop_lens (enc : String → List Nat) (lab : List String) :
    ∀ (tl : List String) (i : Nat),
      (wordLoop enc lab tl i).labs.length = (wordLoop enc lab tl i).tok.length ∧
      (wordLoop enc lab tl i).vld.length = (wordLoop enc lab tl i).tok.length ∧
      (wordLoop enc lab tl i).msk.length = (wordLoop enc lab tl i).tok.length := by
  intro tl
  induction tl with
  | nil => intro i; simp [wordLoop]
  | cons w ws ih =>
    intro i
    have h := ih (i + 1)
    simp [wordLoop, subwordCol_length, h.1, h.2.1, h.2.2]

theorem pySlice_length_congr (k : Int) (l1 : List α) (l2 : List β)
    (h : l1.length = l2.length) :
    (pySlice k l1).length = (pySlice k l2).length := by
  unfold pySlice
  split <;> simp [List.length_take, h]

theorem pySlice_of_two_le (msl : Nat) (h : 2 ≤ msl) (l : List α) :
    pySlice ((msl : Int) - 2) l = l.take (msl - 2) := by
  unfold pySlice
  rw [if_pos (by omega)]
  congr 1
  omega

theorem truncCols_lens (msl : Nat) (w : WordCols)
    (h1 : w.labs.length = w.tok.length) (h2 : w.vld.length = w.tok.length)
    (h3 : w.msk.length = w.tok.length) :
    (truncCols msl w).labs.length = (truncCols msl w).tok.length ∧
    (truncCols msl w).vld.length = (truncCols msl w).tok.length ∧
    (truncCols msl w).msk.length = (truncCols msl w).tok.length := by
  unfold truncCols
  split
  · exact ⟨pySlice_length_congr _ _ _ h1, pySlice_length_congr _ _ _ h2,
      pySlice_length_congr _ _ _ h3⟩
  · exact ⟨h1, h2, h3⟩

theorem truncCols_pos (msl : Nat) (w : WordCols) (hmsl : 2 ≤ msl)
    (h : msl - 1 ≤ w.tok.length) :
    truncCols msl w =
      ⟨w.tok.take (msl - 2), w.labs.take (msl - 2), w.vld.take (msl - 2),
       w.msk.take (msl - 2)⟩ := by
  unfold truncCols
  rw [if_pos (by omega)]
  simp [pySlice_of_two_le msl hmsl]

theorem truncCols_neg (msl : Nat) (w : WordCols)
    (h : w.tok.length + 1 < msl) :
    truncCols msl w = w := by
  unfold truncCols
  rw [if_neg (by omega)]

theorem marked_lens (msl : Nat) (enc : String → List Nat) (lab : List String)
    (tl : List String) :
    (markCols (truncCols msl (wordLoop enc lab tl 0))).labs.length =
      (markCols (truncCols msl (wordLoop enc lab tl 0))).tok.length ∧
    (markCols (truncCols msl (wordLoop enc lab tl 0))).vld.length =
      (markCols (truncCols msl (wordLoop enc lab tl 0))).tok.length ∧
    (markCols (truncCols msl (wordLoop enc lab tl 0))).msk.length =
      (markCols (truncCols msl (wordLoop enc lab tl 0))).tok.length := by
  have h := wordLoop_lens enc lab tl 0
  have h2 := truncCols_lens msl _ h.1 h.2.1 h.2.2
  simp [markCols, h2.1, h2.2.1, h2.2.2]

theorem exampleCols_tok (msl : Nat) (ll : List String)
    (enc : String → List Nat) (e : InputExample) :
    (exampleCols msl ll enc e).tok =
      (markCols (truncCols msl
        (wordLoop enc e.label (pySplit ' ' e.text_a) 0))).tok := rfl

theorem exampleCols_im (msl : Nat) (ll : List String)
    (enc : String → List Nat) (e : InputExample) :
    (exampleCols msl ll enc e).im =
      List.replicate (markCols (truncCols msl
        (wordLoop enc e.label (pySplit ' ' e.text_a) 0))).tok.length 1 := rfl

theorem exampleCols_vld (msl : Nat) (ll : List String)
    (enc : String → List Nat) (e : InputExample) :
    (exampleCols msl ll enc e).vld =
      (markCols (truncCols msl
        (wordLoop enc e.label (pySplit ' ' e.text_a) 0))).vld := rfl

theorem exampleCols_lmsk (msl : Nat) (ll : List String)
    (enc : String → List Nat) (e : InputExample) :
    (exampleCols msl ll enc e).lmsk =
      (markCols (truncCols msl
        (wordLoop enc e.label (pySplit ' ' e.text_a) 0))).msk := rfl

theorem exampleCols_lid (msl : Nat) (ll : List String)
    (enc : String → List Nat) (e : InputExample) :
    (exampleCols msl ll enc e).lid =
      (markCols (truncCols msl
        (wordLoop enc e.label (pySplit ' ' e.text_a) 0))).labs.map
        (label_map ll) := by
  have h := (marked_lens msl enc e.label (pySplit ' ' e.text_a)).1
  simp only [exampleCols]
  rw [← h, range_map_getD]

theorem getLast?_cons_concat (a b : α) (l : List α) :
    (a :: (l ++ [b])).getLast? = some b := by
  rw [← List.cons_append, List.getLast?_concat]

theorem take_len_append (l1 l2 : List α) (k : Nat) (h : l1.length = k) :
    (l1 ++ l2).take k = l1 := by
  subst h
  rw [List.take_append_eq_append_take, Nat.sub_self, List.take_zero,
    List.append_nil, List.take_length]

/-! ## C3: truncation arithmetic and sentence markers -/

/-- C3: in the transformer-packing strategy, an example whose
sub-word-encoded length (before markers) is at least max_seq_length - 1
has its token, label, validity and label-mask arrays truncated to length
max_seq_length - 2 before markers; and every example (truncated or not)
gets a beginning-of-sequence id 0 prepended and an end-of-sequence id 2
appended, both with the IGNORE label id, validity 0 and label mask 0. -/
theorem C3_truncation_and_markers (msl : Nat) (ll : List String)
    (enc : String → List Nat) (e : InputExample) (hmsl : 2 ≤ msl) :
    (msl - 1 ≤ (wordLoop enc e.label (pySplit ' ' e.text_a) 0).tok.length →
      (exampleCols msl ll enc e).tok =
        0 :: ((wordLoop enc e.label (pySplit ' ' e.text_a) 0).tok.take
          (msl - 2) ++ [2]) ∧
      (exampleCols msl ll enc e).vld =
        0 :: ((wordLoop enc e.label (pySplit ' ' e.text_a) 0).vld.take
          (msl - 2) ++ [0]) ∧
      (exampleCols msl ll enc e).lmsk =
        0 :: ((wordLoop enc e.label (pySplit ' ' e.text_a) 0).msk.take
          (msl - 2) ++ [0]) ∧
      (exampleCols msl ll enc e).lid =
        ("IGNORE" :: ((wordLoop enc e.label (pySplit ' ' e.text_a) 0).labs.take
          (msl - 2) ++ ["IGNORE"])).map (label_map ll) ∧
      ((wordLoop enc e.label (pySplit ' ' e.text_a) 0).tok.take
        (msl - 2)).length = msl - 2) ∧
    ((exampleCols msl ll enc e).tok.head? = some 0 ∧
     (exampleCols msl ll enc e).tok.getLast? = some 2 ∧
     (exampleCols msl ll enc e).lid.head? = some (label_map ll "IGNORE") ∧
     (exampleCols msl ll enc e).lid.getLast? = some (label_map ll "IGNORE") ∧
     (exampleCols msl ll enc e).vld.head? = some 0 ∧
     (exampleCols msl ll enc e).vld.getLast? = some 0 ∧
     (exampleCols msl ll enc e).lmsk.head? = some 0 ∧
     (exampleCols msl ll enc e).lmsk.getLast? = some 0) := by
  constructor
  · intro h
    have ht := truncCols_pos msl
      (wordLoop enc e.label (pySplit ' ' e.text_a) 0) hmsl h
    refine ⟨?_, ?_, ?_, ?_, ?_⟩
    · rw [exampleCols_tok, ht]; rfl
    · rw [exampleCols_vld, ht]; rfl
    · rw [exampleCols_lmsk, ht]; rfl
    · rw [exampleCols_lid, ht]; rfl
    · rw [List.length_take]
      omega
  · rw [exampleCols_tok, exampleCols_vld, exampleCols_lmsk, exampleCols_lid]
    simp only [markCols]
    refine ⟨rfl, getLast?_cons_concat _ _ _, rfl, ?_, rfl,
      getLast?_cons_concat _ _ _, rfl, getLast?_cons_concat _ _ _⟩
    simp only [List.map_cons, List.map_append, List.map_nil]
    exact getLast?_cons_concat _ _ _

/-- Witness for C3 at a concrete truncating input: five one-piece words
with max_seq_length 4 are cut to two sub-word positions, and the record
ends with the end-of-sequence id 2. -/
theorem C3_truncation_and_markers_witness :
    (exampleCols 4 ["O"] encOne exLong).tok =
      0 :: ((wordLoop encOne exLong.label (pySplit ' ' exLong.text_a) 0).tok.take
        (4 - 2) ++ [2]) ∧
    (exampleCols 4 ["O"] encOne exLong).tok.getLast? = some 2 :=
  ⟨((C3_truncation_and_markers 4 ["O"] encOne exLong (by decide)).1
      (by decide)).1,
   (C3_truncation_and_markers 4 ["O"] encOne exLong (by decide)).2.2.1⟩

/-! ## C4: first sub-word piece carries the label, the rest IGNORE -/

theorem wordLoop_segment (enc : String → List Nat) (lab : List String) :
    ∀ (tl : List String) (i j : Nat), j < tl.length →
      1 ≤ (enc (pyStrip (tl.getD j ""))).length →
      (((wordLoop enc lab tl i).tok.drop
          (((tl.take j).map (fun x => (enc (pyStrip x)).length)).sum)).take
          (enc (pyStrip (tl.getD j ""))).length =
        enc (pyStrip (tl.getD j "")) ∧
       ((wordLoop enc lab tl i).labs.drop
          (((tl.take j).map (fun x => (enc (pyStrip x)).length)).sum)).take
          (enc (pyStrip (tl.getD j ""))).length =
        lab.getD (i + j) "" ::
          List.replicate ((enc (pyStrip (tl.getD j ""))).length - 1) "IGNORE" ∧
       ((wordLoop enc lab tl i).vld.drop
          (((tl.take j).map (fun x => (enc (pyStrip x)).length)).sum)).take
          (enc (pyStrip (tl.getD j ""))).length =
        1 :: List.replicate ((enc (pyStrip (tl.getD j ""))).length - 1) 0 ∧
       ((wordLoop enc lab tl i).msk.drop
          (((tl.take j).map (fun x => (enc (pyStrip x)).length)).sum)).take
          (enc (pyStrip (tl.getD j ""))).length =
        1 :: List.replicate ((enc (pyStrip (tl.getD j ""))).length - 1) 0) := by
  intro tl
  induction tl with
  | nil => intro i j hj; simp at hj
  | cons t ts ih =>
    intro i j hj hk
    cases j with
    | zero =>
      simp only [List.take_zero, List.map_nil, List.sum_nil, List.drop_zero,
        List.getD_cons_zero] at hk ⊢
      simp only [wordLoop]
      refine ⟨?_, ?_, ?_, ?_⟩
      · exact take_len_append _ _ _ rfl
      · rw [take_len_append _ _ _ (subwordCol_length _ _ _),
          subwordCol_pos _ _ _ hk]
        simp
      · rw [take_len_append _ _ _ (subwordCol_length _ _ _),
          subwordCol_pos _ _ _ hk]
      · rw [take_len_append _ _ _ (subwordCol_length _ _ _),
          subwordCol_pos _ _ _ hk]
    | succ j' =>
      have hj' : j' < ts.length := by simpa using hj
      simp only [List.getD_cons_succ] at hk ⊢
      simp only [List.take_succ_cons, List.map_cons, List.sum_cons]
      simp only [wordLoop]
      have hrec := ih (i + 1) j' hj' hk
      have hadd : i + 1 + j' = i + (j' + 1) := by omega
      rw [hadd] at hrec
      refine ⟨?_, ?_, ?_, ?_⟩
      · rw [List.drop_append_eq_append_drop]
        have hd : (enc (pyStrip t)).length +
            ((ts.take j').map (fun x => (enc (pyStrip x)).length)).sum -
            (enc (pyStrip t)).length =
            ((ts.take j').map (fun x => (enc (pyStrip x)).length)).sum := by
          omega
        rw [List.drop_eq_nil_of_le (by omega), List.nil_append, hd]
        exact hrec.1
      · rw [List.drop_append_eq_append_drop]
        have hd : (enc (pyStrip t)).length +
            ((ts.take j').map (fun x => (enc (pyStrip x)).length)).sum -
            (subwordCol (enc (pyStrip t)).length (lab.getD i "") "IGNORE").length =
            ((ts.take j').map (fun x => (enc (pyStrip x)).length)).sum := by
          rw [subwordCol_length]; omega
        rw [List.drop_eq_nil_of_le (by rw [subwordCol_length]; omega),
          List.nil_append, hd]
        exact hrec.2.1
      · rw [List.drop_append_eq_append_drop]
        have hd : (enc (pyStrip t)).length +
            ((ts.take j').map (fun x => (enc (pyStrip x)).length)).sum -
            (subwordCol (enc (pyStrip t)).length (1 : Nat) 0).length =
            ((ts.take j').map (fun x => (enc (pyStrip x)).length)).sum := by
          rw [subwordCol_length]; omega
        rw [List.drop_eq_nil_of_le (by rw [subwordCol_length]; omega),
          List.nil_append, hd]
        exact hrec.2.2.1
      · rw [List.drop_append_eq_append_drop]
        have hd : (enc (pyStrip t)).length +
            ((ts.take j').map (fun x => (enc (pyStrip x)).length)).sum -
            (subwordCol (enc (pyStrip t)).length (1 : Nat) 0).length =
            ((ts.take j').map (fun x => (enc (pyStrip x)).length)).sum := by
          rw [subwordCol_length]; omega
        rw [List.drop_eq_nil_of_le (by rw [subwordCol_length]; omega),
          List.nil_append, hd]
        exact hrec.2.2.2

/-- C4: in the transformer word loop, a word that the sub-word encoder
maps to k >= 1 pieces contributes, at its offset in the example's columns,
the word's label with validity 1 and label mask 1 at the first piece
position, and the IGNORE label with validity 0 and label mask 0 at each of
the remaining k - 1 piece positions (its token segment being exactly the
word's encoded pieces). -/
theorem C4_first_subword_inherits_label (enc : String → List Nat)
    (textlist labellist : List String) (j : Nat)
    (hj : j < textlist.length) (hlab : j < labellist.length)
    (hk : 1 ≤ (enc (pyStrip (textlist.getD j ""))).length) :
    (((wordLoop enc labellist textlist 0).tok.drop
        (((textlist.take j).map (fun x => (enc (pyStrip x)).length)).sum)).take
        (enc (pyStrip (textlist.getD j ""))).length =
      enc (pyStrip (textlist.getD j "")) ∧
     ((wordLoop enc labellist textlist 0).labs.drop
        (((textlist.take j).map (fun x => (enc (pyStrip x)).length)).sum)).take
        (enc (pyStrip (textlist.getD j ""))).length =
      labellist.get ⟨j, hlab⟩ ::
        List.replicate ((enc (pyStrip (textlist.getD j ""))).length - 1)
          "IGNORE" ∧
     ((wordLoop enc labellist textlist 0).vld.drop
        (((textlist.take j).map (fun x => (enc (pyStrip x)).length)).sum)).take
        (enc (pyStrip (textlist.getD j ""))).length =
      1 :: List.replicate ((enc (pyStrip (textlist.getD j ""))).length - 1) 0 ∧
     ((wordLoop enc labellist textlist 0).msk.drop
        (((textlist.take j).map (fun x => (enc (pyStrip x)).length)).sum)).take
        (enc (pyStrip (textlist.getD j ""))).length =
      1 :: List.replicate ((enc (pyStrip (textlist.getD j ""))).length - 1) 0) := by
  have h := wordLoop_segment enc labellist textlist 0 j hj hk
  have hget : labellist.getD (0 + j) "" = labellist.get ⟨j, hlab⟩ := by
    rw [Nat.zero_add]
    rw [List.getD_eq_getElem labellist "" hlab]
    rfl
  rw [hget] at h
  exact h

/-- Witness for C4 at a concrete input: the second word bb encodes to two
pieces; its first piece carries the label Y, the second carries IGNORE. -/
theorem C4_first_subword_inherits_label_witness :
    ((wordLoop encTwo ["X", "Y"] ["a", "bb"] 0).labs.drop 1).take 2 =
      ["Y", "IGNORE"] ∧
    ((wordLoop encTwo ["X", "Y"] ["a", "bb"] 0).vld.drop 1).take 2 = [1, 0] :=
  ⟨(C4_first_subword_inherits_label encTwo ["a", "bb"] ["X", "Y"] 1
      (by decide) (by decide) (by decide)).2.1,
   (C4_first_subword_inherits_label encTwo ["a", "bb"] ["X", "Y"] 1
      (by decide) (by decide) (by decide)).2.2.1⟩

/-! ## C5: every Feature Record's five arrays have length max_seq_length -/

theorem exampleCols_ok (msl : Nat) (ll : List String)
    (enc : String → List Nat) (e : InputExample) (hmsl : 2 ≤ msl) :
    ColsOK msl (exampleCols msl ll enc e) := by
  have hm := marked_lens msl enc e.label (pySplit ' ' e.text_a)
  refine ⟨?_, ?_, ?_, ?_, ?_⟩
  · rw [exampleCols_im, exampleCols_tok, List.length_replicate]
  · rw [exampleCols_lid, exampleCols_tok, List.length_map, hm.1]
  · rw [exampleCols_vld, exampleCols_tok, hm.2.1]
  · rw [exampleCols_lmsk, exampleCols_tok, hm.2.2]
  · rw [exampleCols_tok]
    have hlen : (truncCols msl
        (wordLoop enc e.label (pySplit ' ' e.text_a) 0)).tok.length ≤
        msl - 2 := by
      by_cases h : msl - 1 ≤
          (wordLoop enc e.label (pySplit ' ' e.text_a) 0).tok.length
      · rw [truncCols_pos msl _ hmsl h]
        exact List.length_take_le _ _
      · rw [truncCols_neg msl _ (by omega)]
        omega
    simp only [markCols, List.length_cons, List.length_append,
      List.length_nil]
    omega

theorem append_pending_lens (msl : Nat) (ll : List String) (p : Cols)
    (h : ColsOK msl p) :
    (append_pending "IGNORE" p msl (label_map ll)).input_ids.length = msl ∧
    (append_pending "IGNORE" p msl (label_map ll)).input_mask.length = msl ∧
    (append_pending "IGNORE" p msl (label_map ll)).label_id.length = msl ∧
    (append_pending "IGNORE" p msl (label_map ll)).valid_ids.length = msl ∧
    (append_pending "IGNORE" p msl (label_map ll)).label_mask.length = msl := by
  obtain ⟨h1, h2, h3, h4, h5⟩ := h
  simp only [append_pending, List.length_append, List.length_replicate,
    h1, h2, h3, h4]
  omega

theorem catCols_ok (msl : Nat) (p q : Cols) (hp : ColsOK msl p)
    (hq : q.im.length = q.tok.length ∧ q.lid.length = q.tok.length ∧
      q.vld.length = q.tok.length ∧ q.lmsk.length = q.tok.length)
    (hfit : p.tok.length + q.tok.length ≤ msl) :
    ColsOK msl (catCols p q) := by
  obtain ⟨h1, h2, h3, h4, h5⟩ := hp
  obtain ⟨g1, g2, g3, g4⟩ := hq
  refine ⟨?_, ?_, ?_, ?_, ?_⟩ <;>
    simp only [catCols, List.length_append, h1, h2, h3, h4, g1, g2, g3, g4]
  exact hfit

theorem packLoop_lens (msl : Nat) (ll : List String)
    (enc : String → List Nat) (hmsl : 2 ≤ msl) :
    ∀ (es : List InputExample) (p : Cols), ColsOK msl p →
      ∀ f ∈ packLoop msl ll enc es p,
        f.input_ids.length = msl ∧ f.input_mask.length = msl ∧
        f.label_id.length = msl ∧ f.valid_ids.length = msl ∧
        f.label_mask.length = msl := by
  intro es
  induction es with
  | nil =>
    intro p hp f hf
    rw [packLoop_nil_eq, List.mem_singleton] at hf
    rw [hf]
    exact append_pending_lens msl ll p hp
  | cons e es ih =>
    intro p hp f hf
    have hok := exampleCols_ok msl ll enc e hmsl
    by_cases h : (exampleCols msl ll enc e).tok.length + p.tok.length ≤ msl
    · rw [packLoop_cons_le msl ll enc e es p h] at hf
      have hcat : ColsOK msl (catCols p (exampleCols msl ll enc e)) :=
        catCols_ok msl p (exampleCols msl ll enc e) hp
          ⟨hok.1, hok.2.1, hok.2.2.1, hok.2.2.2.1⟩ (by omega)
      exact ih (catCols p (exampleCols msl ll enc e)) hcat f hf
    · rw [packLoop_cons_gt msl ll enc e es p (by omega)] at hf
      rcases List.mem_cons.mp hf with hf1 | hf2
      · rw [hf1]
        exact append_pending_lens msl ll p hp
      · exact ih (exampleCols msl ll enc e)
          ⟨hok.1, hok.2.1, hok.2.2.1, hok.2.2.2.1, hok.2.2.2.2⟩ f hf2

theorem emptyCols_ok (msl : Nat) : ColsOK msl emptyCols := by
  refine ⟨rfl, rfl, rfl, rfl, ?_⟩
  simp [emptyCols]

theorem lstmTokenIds_length (msl : Nat) (ids : List Nat) :
    (lstmTokenIds msl ids).length = msl := by
  unfold lstmTokenIds
  split
  · rw [List.length_take]; omega
  · split
    · rw [List.length_append, List.length_replicate]; omega
    · omega

/-- C5: for every Feature Record produced by either feature strategy,
each of the five parallel arrays (input token ids, input mask, label ids,
validity mask, label mask) has length exactly max_seq_length. -/
theorem C5_feature_record_lengths (msl : Nat) (ll : List String)
    (hmsl : 2 ≤ msl) (encL : List String → List Nat)
    (encT : String → List Nat) (esL esT : List InputExample) :
    (∀ f ∈ convert_examples_to_features_LSTM esL ll msl encL,
      f.input_ids.length = msl ∧ f.input_mask.length = msl ∧
      f.label_id.length = msl ∧ f.valid_ids.length = msl ∧
      f.label_mask.length = msl) ∧
    (∀ f ∈ convert_examples_to_features_Transformers esT ll msl encT,
      f.input_ids.length = msl ∧ f.input_mask.length = msl ∧
      f.label_id.length = msl ∧ f.valid_ids.length = msl ∧
      f.label_mask.length = msl) := by
  constructor
  · intro f hf
    rw [convert_examples_to_features_LSTM, List.mem_map] at hf
    obtain ⟨e, _, he⟩ := hf
    subst he
    have htl := lstmTokenIds_length msl (encL (pySplit ' ' e.text_a))
    refine ⟨htl, ?_, ?_, ?_, ?_⟩ <;>
      simp [lstmFeature, htl, List.length_replicate, List.length_append]
  · intro f hf
    exact packLoop_lens msl ll encT hmsl esT emptyCols (emptyCols_ok msl) f hf

/-- Witness for C5 at concrete inputs: one example per strategy at
max_seq_length 4 yields records whose input-id arrays have length 4. -/
theorem C5_feature_record_lengths_witness :
    (lstmFeature ["O"] 4 encPerWord exA).input_ids.length = 4 ∧
    (append_pending "IGNORE" (exampleCols 4 ["O"] encOne exB) 4
      (label_map ["O"])).input_ids.length = 4 :=
  ⟨((C5_feature_record_lengths 4 ["O"] (by decide) encPerWord encOne [exA]
      [exB]).1 (lstmFeature ["O"] 4 encPerWord exA) (by decide)).1,
   ((C5_feature_record_lengths 4 ["O"] (by decide) encPerWord encOne [exA]
      [exB]).2 (append_pending "IGNORE" (exampleCols 4 ["O"] encOne exB) 4
      (label_map ["O"])) (by decide)).1⟩

/-! ## C2: multi-example packing behavior -/

/-- C2: the packing loop accumulates marked example columns into the
pending buffer and flushes exactly when the next example's arrays would
push the buffer past max_seq_length, the flushed buffer being padded by
append_pending (pad token id 1, masks 0, label IGNORE) and the remaining
buffer being flushed after the last example: two examples whose combined
marked length fits within max_seq_length share a single padded Feature
Record, and a third example that would overflow starts a new record,
flushed on its own at the end. -/
theorem C2_multi_example_packing (msl : Nat) (ll : List String)
    (enc : String → List Nat) (e1 e2 e3 : InputExample)
    (h12 : (exampleCols msl ll enc e1).tok.length +
      (exampleCols msl ll enc e2).tok.length ≤ msl)
    (h123 : msl < (exampleCols msl ll enc e3).tok.length +
      ((exampleCols msl ll enc e1).tok.length +
       (exampleCols msl ll enc e2).tok.length)) :
    convert_examples_to_features_Transformers [e1, e2] ll msl enc =
      [append_pending "IGNORE"
        (catCols (exampleCols msl ll enc e1) (exampleCols msl ll enc e2))
        msl (label_map ll)] ∧
    convert_examples_to_features_Transformers [e1, e2, e3] ll msl enc =
      [append_pending "IGNORE"
        (catCols (exampleCols msl ll enc e1) (exampleCols msl ll enc e2))
        msl (label_map ll),
       append_pending "IGNORE" (exampleCols msl ll enc e3) msl
        (label_map ll)] := by
  constructor
  · show packLoop msl ll enc [e1, e2] emptyCols = _
    rw [packLoop_cons_le msl ll enc e1 [e2] emptyCols
        (by simp only [emptyCols, List.length_nil]; omega),
      catCols_empty_left,
      packLoop_cons_le msl ll enc e2 [] (exampleCols msl ll enc e1)
        (by omega),
      packLoop_nil_eq]
  · show packLoop msl ll enc [e1, e2, e3] emptyCols = _
    rw [packLoop_cons_le msl ll enc e1 [e2, e3] emptyCols
        (by simp only [emptyCols, List.length_nil]; omega),
      catCols_empty_left,
      packLoop_cons_le msl ll enc e2 [e3] (exampleCols msl ll enc e1)
        (by omega),
      packLoop_cons_gt msl ll enc e3 []
        (catCols (exampleCols msl ll enc e1) (exampleCols msl ll enc e2))
        (by simp only [catCols, List.length_append]; omega),
      packLoop_nil_eq]

/-- Witness for C2 at concrete inputs: with max_seq_length 8 and a
one-piece-per-word encoder, examples of marked lengths 4 and 3 share one
record and a third of marked length 3 starts a new one. -/
theorem C2_multi_example_packing_witness :
    convert_examples_to_features_Transformers [exA, exB] ["O"] 8 encOne =
      [append_pending "IGNORE"
        (catCols (exampleCols 8 ["O"] encOne exA)
          (exampleCols 8 ["O"] encOne exB)) 8 (label_map ["O"])] ∧
    convert_examples_to_features_Transformers [exA, exB, exC] ["O"] 8 encOne =
      [append_pending "IGNORE"
        (catCols (exampleCols 8 ["O"] encOne exA)
          (exampleCols 8 ["O"] encOne exB)) 8 (label_map ["O"]),
       append_pending "IGNORE" (exampleCols 8 ["O"] encOne exC) 8
        (label_map ["O"])] :=
  C2_multi_example_packing 8 ["O"] encOne exA exB exC (by decide) (by decide)

/-! ## C6: validity-masked labels reconstruct one label per word -/

theorem maskSel_append (v1 v2 l1 l2 : List Nat) (h : v1.length = l1.length) :
    maskSel (v1 ++ v2) (l1 ++ l2) = maskSel v1 l1 ++ maskSel v2 l2 := by
  unfold maskSel
  rw [List.zip_append h, List.filterMap_append]

theorem maskSelS_append (v1 v2 : List Nat) (l1 l2 : List String)
    (h : v1.length = l1.length) :
    maskSelS (v1 ++ v2) (l1 ++ l2) = maskSelS v1 l1 ++ maskSelS v2 l2 := by
  unfold maskSelS
  rw [List.zip_append h, List.filterMap_append]

theorem maskSel_cons_zero (v l : List Nat) (a : Nat) :
    maskSel (0 :: v) (a :: l) = maskSel v l := by
  simp [maskSel]

theorem maskSel_cons_one (v l : List Nat) (a : Nat) :
    maskSel (1 :: v) (a :: l) = a :: maskSel v l := by
  simp [maskSel]

theorem maskSel_cons_ne (v l : List Nat) (a b : Nat) (h : a ≠ 1) :
    maskSel (a :: v) (b :: l) = maskSel v l := by
  simp [maskSel, h]

theorem maskSelS_cons_zero (v : List Nat) (l : List String) (a : String) :
    maskSelS (0 :: v) (a :: l) = maskSelS v l := by
  simp [maskSelS]

theorem maskSelS_cons_one (v : List Nat) (l : List String) (a : String) :
    maskSelS (1 :: v) (a :: l) = a :: maskSelS v l := by
  simp [maskSelS]

theorem maskSelS_cons_ne (v : List Nat) (l : List String) (a : Nat)
    (b : String) (h : a ≠ 1) :
    maskSelS (a :: v) (b :: l) = maskSelS v l := by
  simp [maskSelS, h]

theorem maskSel_replicate_zero (n : Nat) (l : List Nat) :
    maskSel (List.replicate n 0) l = [] := by
  induction n generalizing l with
  | zero => rfl
  | succ m ih =>
    cases l with
    | nil => rfl
    | cons a l =>
      rw [List.replicate_succ, maskSel_cons_zero]
      exact ih l

theorem maskSelS_replicate_zero (n : Nat) (l : List String) :
    maskSelS (List.replicate n 0) l = [] := by
  induction n generalizing l with
  | zero => rfl
  | succ m ih =>
    cases l with
    | nil => rfl
    | cons a l =>
      rw [List.replicate_succ, maskSelS_cons_zero]
      exact ih l

theorem maskSel_map (g : String → Nat) :
    ∀ (v : List Nat) (l : List String),
      maskSel v (l.map g) = (maskSelS v l).map g := by
  intro v
  induction v with
  | nil => intro l; rfl
  | cons a v ih =>
    intro l
    cases l with
    | nil => rfl
    | cons b l =>
      rw [List.map_cons]
      by_cases h : a = 1
      · subst h
        rw [maskSel_cons_one, maskSelS_cons_one, List.map_cons, ih l]
      · rw [maskSel_cons_ne _ _ _ _ h, maskSelS_cons_ne _ _ _ _ h, ih l]

theorem range_map_shift (f : Nat → α) (n : Nat) :
    (List.range (n + 1)).map f = f 0 :: (List.range n).map (fun j => f (j + 1)) := by
  rw [List.range_succ_eq_map, List.map_cons, List.map_map]
  rfl

theorem range_map_getD_self (d : α) :
    ∀ (l : List α), (List.range l.length).map (fun i => l.getD i d) = l := by
  intro l
  induction l with
  | nil => simp
  | cons a l ih =>
    rw [List.length_cons, range_map_shift, List.getD_cons_zero]
    simp only [List.getD_cons_succ]
    rw [ih]

theorem wordLoop_stream (enc : String → List Nat) (lab : List String) :
    ∀ (tl : List String) (i : Nat),
      (∀ w ∈ tl, 1 ≤ (enc (pyStrip w)).length) →
      maskSelS (wordLoop enc lab tl i).vld (wordLoop enc lab tl i).labs =
        (List.range tl.length).map (fun j => lab.getD (i + j) "") := by
  intro tl
  induction tl with
  | nil => intro i _; rfl
  | cons t ts ih =>
    intro i hk
    have hkt : 1 ≤ (enc (pyStrip t)).length := hk t (List.mem_cons_self t ts)
    have hks : ∀ w ∈ ts, 1 ≤ (enc (pyStrip w)).length :=
      fun w hw => hk w (List.mem_cons_of_mem t hw)
    simp only [wordLoop]
    rw [maskSelS_append _ _ _ _ (by rw [subwordCol_length, subwordCol_length]),
      subwordCol_pos _ _ _ hkt, subwordCol_pos _ _ _ hkt,
      maskSelS_cons_one, maskSelS_replicate_zero, ih (i + 1) hks,
      List.length_cons, range_map_shift]
    have harith : (fun j => lab.getD (i + 1 + j) "") =
        fun j => lab.getD (i + (j + 1)) "" := by
      funext j
      congr 1
      omega
    rw [harith]
    simp

theorem exampleCols_stream (msl : Nat) (ll : List String)
    (enc : String → List Nat) (e : InputExample)
    (hno : (wordLoop enc e.label (pySplit ' ' e.text_a) 0).tok.length + 1 < msl)
    (hk : ∀ w ∈ pySplit ' ' e.text_a, 1 ≤ (enc (pyStrip w)).length)
    (hlab : (pySplit ' ' e.text_a).length = e.label.length) :
    maskSel (exampleCols msl ll enc e).vld (exampleCols msl ll enc e).lid =
      e.label.map (label_map ll) := by
  have htr := truncCols_neg msl (wordLoop enc e.label (pySplit ' ' e.text_a) 0) hno
  have hlens := wordLoop_lens enc e.label (pySplit ' ' e.text_a) 0
  rw [exampleCols_vld, exampleCols_lid, htr]
  simp only [markCols]
  rw [List.map_cons, List.map_append, maskSel_cons_zero,
    maskSel_append _ _ _ _ (by rw [List.length_map, hlens.2.1, hlens.1])]
  have h0 : maskSel [0] (List.map (label_map ll) ["IGNORE"]) = [] := rfl
  rw [h0, List.append_nil, maskSel_map,
    wordLoop_stream enc e.label (pySplit ' ' e.text_a) 0 hk]
  simp only [Nat.zero_add]
  rw [hlab, range_map_getD_self]

theorem append_pending_stream (msl : Nat) (ll : List String) (p : Cols)
    (h : ColsOK msl p) :
    maskSel (append_pending "IGNORE" p msl (label_map ll)).valid_ids
      (append_pending "IGNORE" p msl (label_map ll)).label_id =
      maskSel p.vld p.lid := by
  obtain ⟨h1, h2, h3, h4, h5⟩ := h
  simp only [append_pending]
  have hn2 : msl - (p.lid ++ List.replicate (msl - p.tok.length)
      (label_map ll "IGNORE")).length = 0 := by
    rw [List.length_append, List.length_replicate, h2]
    omega
  rw [hn2]
  simp only [List.replicate_zero, List.append_nil]
  rw [maskSel_append _ _ _ _ (by rw [h3, h2]), maskSel_replicate_zero,
    List.append_nil]

theorem packLoop_stream (msl : Nat) (ll : List String)
    (enc : String → List Nat) (hmsl : 2 ≤ msl) :
    ∀ (es : List InputExample) (p : Cols), ColsOK msl p →
      (∀ e ∈ es,
        (wordLoop enc e.label (pySplit ' ' e.text_a) 0).tok.length + 1 < msl) →
      (∀ e ∈ es, ∀ w ∈ pySplit ' ' e.text_a, 1 ≤ (enc (pyStrip w)).length) →
      (∀ e ∈ es, (pySplit ' ' e.text_a).length = e.label.length) →
      (packLoop msl ll enc es p).flatMap
        (fun f => maskSel f.valid_ids f.label_id) =
      maskSel p.vld p.lid ++
        es.flatMap (fun e => e.label.map (label_map ll)) := by
  intro es
  induction es with
  | nil =>
    intro p hp _ _ _
    rw [packLoop_nil_eq]
    simp only [List.flatMap_cons, List.flatMap_nil, List.append_nil]
    rw [append_pending_stream msl ll p hp]
  | cons e es ih =>
    intro p hp hno hk hlab
    have hnoe := hno e (List.mem_cons_self e es)
    have hke := hk e (List.mem_cons_self e es)
    have hlabe := hlab e (List.mem_cons_self e es)
    have hnos : ∀ x ∈ es,
        (wordLoop enc x.label (pySplit ' ' x.text_a) 0).tok.length + 1 < msl :=
      fun x hx => hno x (List.mem_cons_of_mem e hx)
    have hks : ∀ x ∈ es, ∀ w ∈ pySplit ' ' x.text_a,
        1 ≤ (enc (pyStrip w)).length :=
      fun x hx => hk x (List.mem_cons_of_mem e hx)
    have hlabs : ∀ x ∈ es, (pySplit ' ' x.text_a).length = x.label.length :=
      fun x hx => hlab x (List.mem_cons_of_mem e hx)
    have hok := exampleCols_ok msl ll enc e hmsl
    have hstream := exampleCols_stream msl ll enc e hnoe hke hlabe
    by_cases h : (exampleCols msl ll enc e).tok.length + p.tok.length ≤ msl
    · rw [packLoop_cons_le msl ll enc e es p h,
        ih (catCols p (exampleCols msl ll enc e))
          (catCols_ok msl p _ hp ⟨hok.1, hok.2.1, hok.2.2.1, hok.2.2.2.1⟩
            (by omega)) hnos hks hlabs]
      simp only [catCols]
      rw [maskSel_append _ _ _ _ (by rw [hp.2.2.1, hp.2.1]), hstream]
      simp [List.flatMap_cons, List.append_assoc]
    · rw [packLoop_cons_gt msl ll enc e es p (by omega), List.flatMap_cons,
        append_pending_stream msl ll p hp,
        ih (exampleCols msl ll enc e)
          ⟨hok.1, hok.2.1, hok.2.2.1, hok.2.2.2.1, hok.2.2.2.2⟩
          hnos hks hlabs, hstream]
      simp [List.flatMap_cons, List.append_assoc]

/-- C6: for examples that trigger no truncation, whose every word encodes
to at least one sub-word piece, and whose word count equals their label
count, the label ids found at the validity-1 positions of the produced
records, in order, are exactly one mapped label per original word, in the
original word order across all examples. -/
theorem C6_validity_roundtrip (msl : Nat) (ll : List String)
    (enc : String → List Nat) (es : List InputExample) (hmsl : 2 ≤ msl)
    (hno : ∀ e ∈ es,
      (wordLoop enc e.label (pySplit ' ' e.text_a) 0).tok.length + 1 < msl)
    (hk : ∀ e ∈ es, ∀ w ∈ pySplit ' ' e.text_a, 1 ≤ (enc (pyStrip w)).length)
    (hlab : ∀ e ∈ es, (pySplit ' ' e.text_a).length = e.label.length) :
    (convert_examples_to_features_Transformers es ll msl enc).flatMap
      (fun f => maskSel f.valid_ids f.label_id) =
      es.flatMap (fun e => e.label.map (label_map ll)) := by
  unfold convert_examples_to_features_Transformers
  rw [packLoop_stream msl ll enc hmsl es emptyCols (emptyCols_ok msl)
    hno hk hlab]
  rfl

/-- Witness for C6 at concrete inputs: two short examples with a
one-piece-per-word encoder; the masked labels are one id per word. -/
theorem C6_validity_roundtrip_witness :
    (convert_examples_to_features_Transformers [exA, exB] ["O"] 8
      encOne).flatMap (fun f => maskSel f.valid_ids f.label_id) =
      [exA, exB].flatMap (fun e => e.label.map (label_map ["O"])) :=
  C6_validity_roundtrip 8 ["O"] encOne [exA, exB] (by decide) (by decide)
    (by decide) (by decide)
